import Mathlib

/-!
Verification of the classification-and-selection engine of the
`opencode-auto-model` repository (file `src/orchestrator.plugin.ts`,
plugin version V2.1).

The TypeScript source is shallowly embedded below: every definition is a
direct translation of the corresponding function in
`orchestrator.plugin.ts` (line numbers are given in the doc comments).
The host JavaScript `RegExp` engine is an external library, so it is
modelled abstractly by a `RegexEngine` record: `test p s` returns
`none` when compiling pattern `p` throws (invalid regex) and
`some b` with the match result otherwise; `countMatches` models
`s.match(new RegExp(p, "gi"))`, returning the number of matches.
A concrete sound instance `litEngine` is provided for patterns that
contain no regex metacharacters: on those, JavaScript regex matching
coincides with (case-insensitive) literal substring matching, which is
implemented directly on character lists.  `litEngine` answers `none`
(i.e. makes no commitment) on every pattern containing a metacharacter.

JavaScript strings are modelled as Lean `String`s; all concrete inputs
used in theorems are ASCII, where `jsToLower` agrees with
`String.prototype.toLowerCase`.
-/

namespace AutoModel

/-- Lower-case a character exactly as JavaScript `toLowerCase` does on
the ASCII range (the only range exercised by the configurations and
prompts considered here). -/
def jsToLower (c : Char) : Char :=
  if 'A' ≤ c ∧ c ≤ 'Z' then Char.ofNat (c.toNat + 32) else c

/-- Lower-case a string character-wise (JS `toLowerCase` on ASCII). -/
def lowerStr (s : String) : String :=
  ⟨s.data.map jsToLower⟩

/-- `listPrefix pat l` : `pat` is a prefix of `l` (decidable, on chars). -/
def listPrefix : List Char → List Char → Bool
  | [], _ => true
  | _ :: _, [] => false
  | a :: as, b :: bs => a == b && listPrefix as bs

/-- `occursIn pat hay` : `pat` occurs as a contiguous substring of
`hay`; models JavaScript `hay.includes(pat)` on character lists. -/
def occursIn (pat : List Char) : List Char → Bool
  | [] => pat.isEmpty
  | c :: rest => listPrefix pat (c :: rest) || occursIn pat rest

/-- JavaScript `s.includes(sub)`. -/
def strIncludes (s sub : String) : Bool :=
  occursIn sub.data s.data

/-- Helper for `countOcc`: scans the list one character at a time,
`skip` being the number of positions still covered by the previous
match (a structural recursion so that proofs can evaluate it). -/
def countOccA (pat : List Char) : List Char → Nat → Nat
  | [], _ => 0
  | c :: rest, skip =>
    if skip > 0 then countOccA pat rest (skip - 1)
    else if listPrefix pat (c :: rest) && !pat.isEmpty then
      1 + countOccA pat rest (pat.length - 1)
    else countOccA pat rest 0

/-- Number of non-overlapping, left-to-right occurrences of `pat` in a
list; models the length of `s.match(re)` for a global regex whose
pattern is the literal `pat` (`pat` non-empty). -/
def countOcc (pat l : List Char) : Nat :=
  countOccA pat l 0

/-- Characters with a special meaning in JavaScript regular
expressions.  A pattern free of all of these denotes the literal
string itself. -/
def isRegexMeta (c : Char) : Bool :=
  c ∈ ['\\', '^', '$', '.', '|', '?', '*', '+', '(', ')', '[', ']', '\x7b', '\x7d']

/-- Abstract model of the host JavaScript `RegExp` engine.
`test p s` models `new RegExp(p, "i").test(s)`: `none` when the
constructor throws (invalid pattern), otherwise `some` of the match
result.  `countMatches p s` models `(s.match(new RegExp(p, "gi")) ?? []).length`
the same way. -/
structure RegexEngine where
  test : String → String → Option Bool
  countMatches : String → String → Option Nat

/-- Sound concrete engine: commits only to metacharacter-free, non-empty
patterns, on which JavaScript regex semantics is literal
(case-insensitive, thanks to the "i" flag) substring matching. -/
def litEngine : RegexEngine where
  test p s :=
    if p.data.any isRegexMeta || p.data.isEmpty then none
    else some (occursIn (lowerStr p).data (lowerStr s).data)
  countMatches p s :=
    if p.data.any isRegexMeta || p.data.isEmpty then none
    else some (countOcc (lowerStr p).data (lowerStr s).data)

-- ===========================================================================
-- Configuration model (orchestrator.plugin.ts, lines 25-120)
-- ===========================================================================

/-- `type TaskType` (line 25). -/
inductive TaskType where
  | codingSimple
  | codingComplex
  | planning
  | debugging
  | review
  | documentation
  | general
deriving DecidableEq, Repr, Fintype

/-- `type Complexity` (line 26). -/
inductive Complexity where
  | simple
  | medium
  | complex
  | advanced
deriving DecidableEq, Repr, Fintype

/-- `type Strategy` (line 27). -/
inductive Strategy where
  | costOptimized
  | performanceOptimized
  | balanced
deriving DecidableEq, Repr, Fintype

/-- The string each `Complexity` constructor denotes in the source. -/
def Complexity.str : Complexity → String
  | .simple => "simple"
  | .medium => "medium"
  | .complex => "complex"
  | .advanced => "advanced"

/-- The string each `TaskType` constructor denotes in the source. -/
def TaskType.str : TaskType → String
  | .codingSimple => "coding-simple"
  | .codingComplex => "coding-complex"
  | .planning => "planning"
  | .debugging => "debugging"
  | .review => "review"
  | .documentation => "documentation"
  | .general => "general"

/-- The string denoted by a `Strategy` constructor in the source. -/
def Strategy.str : Strategy → String
  | .costOptimized => "cost-optimized"
  | .performanceOptimized => "performance-optimized"
  | .balanced => "balanced"

/-- `tokenRange` field of `ComplexityIndicator` (lines 94-97). -/
structure TokenRange where
  min : Nat
  max : Nat
deriving DecidableEq, Repr

/-- `interface TaskTypeIndicator` (lines 86-89). -/
structure TaskTypeIndicator where
  keywords : List String
  patterns : List String
deriving DecidableEq, Repr

/-- `interface ComplexityIndicator` (lines 91-102; the optional
`fileCount` field is never read by the plugin and is omitted). -/
structure ComplexityIndicator where
  keywords : List String
  patterns : List String
  tokenRange : TokenRange
deriving DecidableEq, Repr

/-- A matrix cell value: `string | string[]` (line 82). -/
inductive ModelSelection where
  | single : String → ModelSelection
  | arr : List String → ModelSelection
deriving DecidableEq, Repr

/-- `interface FilePatternOverride` (lines 104-109). -/
structure FilePatternOverride where
  pattern : String
  model : Option String
  taskTypeOverride : Option TaskType
  reason : String
deriving DecidableEq, Repr

/-- `planAwareness` configuration (lines 50-54). -/
structure PlanAwareness where
  enabled : Bool
  planIndicators : List String
  minStepsForReduction : Nat
deriving DecidableEq, Repr

/-- `subtaskDetection` configuration (lines 55-58). -/
structure SubtaskDetection where
  enabled : Bool
  subtaskIndicators : List String
deriving DecidableEq, Repr

/-- `contextSize` configuration (lines 59-63). -/
structure ContextSizeRules where
  enabled : Bool
  smallContextThreshold : Nat
  largeContextThreshold : Nat
deriving DecidableEq, Repr

/-- `contextAware` configuration (lines 48-64); the inner objects are
optional in the TypeScript interface. -/
structure ContextAware where
  enabled : Bool
  planAwareness : Option PlanAwareness
  subtaskDetection : Option SubtaskDetection
  contextSize : Option ContextSizeRules
deriving DecidableEq, Repr

/-- The `OrchestratorConfigV21` fields read by the classification and
selection code (lines 29-78).  `enabled`, `logLevel`, `activeAgents`,
`agentStrategies` and the four boolean `detection.use*` switches only
affect plugin wiring and logging, never the engine, and are omitted.
A JavaScript `Record` with `TaskType` keys cannot contain duplicate
keys and `Object.entries` iterates it in insertion order; it is
modelled as an association list in that order.  Records indexed
by the finite `Strategy` / `Complexity` enums whose iteration order is
irrelevant are modelled as functions; the optional-chaining accesses
(`?.`) on `strategies` are modelled by an `Option` codomain. -/
structure OrchestratorConfigV21 where
  defaultModel : String
  contextAware : Option ContextAware
  strategies : Strategy → Option (TaskType → Complexity → Option ModelSelection)
  taskTypeIndicators : List (TaskType × TaskTypeIndicator)
  indicators : Complexity → ComplexityIndicator
  filePatternOverrides : Option (List FilePatternOverride)

-- ===========================================================================
-- The classification functions (orchestrator.plugin.ts, lines 624-781)
-- ===========================================================================

/-- `estimateTokenCount` (lines 779-781): `Math.ceil(text.length / 4)`
(string length = character count on the ASCII inputs considered). -/
def estimateTokenCount (text : String) : Nat :=
  (text.length + 3) / 4

/-- `indicator.replace(/\./g, "\\.")` inside `detectPlan` (line 632):
every dot is escaped before the indicator is compiled as a regex. -/
def escapeDots (s : String) : String :=
  ⟨s.data.foldr (fun c acc => if c = '.' then '\\' :: '.' :: acc else c :: acc) []⟩

/-- `detectPlan` (lines 627-640).  Each plan indicator is compiled with
`new RegExp(indicator.replace(/\./g, "\\."), "gi")` — *without* a
`try`/`catch` — and its global matches against the session context are
counted; the total is compared with `minStepsForReduction`.  An
indicator whose escaped form is an invalid regex makes the constructor
throw, modelled by `Except.error`. -/
def countPlanSteps (R : RegexEngine) (context : String) :
    List String → Except String Nat
  | [] => .ok 0
  | ind :: rest =>
    match R.countMatches (escapeDots ind) context with
    | some n => (countPlanSteps R context rest).map (fun m => n + m)
    | none => .error ("SyntaxError: invalid regular expression " ++ ind)

/-- `detectPlan` (lines 627-640), see `countPlanSteps`. -/
def detectPlan (R : RegexEngine) (context : String) (pa : PlanAwareness) :
    Except String Bool :=
  (countPlanSteps R context pa.planIndicators).map
    (fun n => decide (n ≥ pa.minStepsForReduction))

/-- `detectSubtask` (lines 645-653): any subtask indicator contained
(case-insensitively) in the prompt; an empty prompt is falsy and takes
the early `return false`. -/
def detectSubtask (promptText : String) (sd : SubtaskDetection) : Bool :=
  if promptText = "" then false
  else
    sd.subtaskIndicators.any (fun ind =>
      strIncludes (lowerStr promptText) (lowerStr ind))

/-- The `levels` array shared by `reduceComplexity` (line 659) and
`raiseComplexity` (line 668). -/
def levels : List Complexity :=
  [.simple, .medium, .complex, .advanced]

/-- `reduceComplexity` (lines 658-662): one step down the `levels`
array, saturating at the first entry. -/
def reduceComplexity (complexity : Complexity) : Complexity :=
  let index := levels.indexOf complexity
  if index > 0 then levels.getD (index - 1) complexity else complexity

/-- `raiseComplexity` (lines 667-671): one step up the `levels` array,
saturating at the last entry. -/
def raiseComplexity (complexity : Complexity) : Complexity :=
  let index := levels.indexOf complexity
  if index < levels.length - 1 then levels.getD (index + 1) complexity
  else complexity

/-- The score the `detectTaskType` loop (lines 685-703) computes for
one indicator: 10 per keyword contained case-insensitively in the
prompt, 15 per pattern whose compiled regex matches it; a pattern whose
compilation throws is caught and counted as non-matching. -/
def ttScore (R : RegexEngine) (promptText : String)
    (indicator : TaskTypeIndicator) : Nat :=
  let promptLower := lowerStr promptText
  (indicator.keywords.filter (fun kw =>
      strIncludes promptLower (lowerStr kw))).length * 10 +
  (indicator.patterns.filter (fun p =>
      (R.test p promptText).getD false)).length * 15

/-- One iteration of the `Find highest scoring ...` loops (lines
705-714 and 762-771): replace the accumulator only on a strictly
greater score. -/
def scanStep {α : Type} (acc : Nat × α) (e : α × Nat) : Nat × α :=
  if e.2 > acc.1 then (e.2, e.1) else acc

/-- `detectTaskType` (lines 676-717): falsy prompt → `general`;
otherwise score every entry of `taskTypeIndicators` and take the first
strictly-maximal one, starting from `(0, general)`. -/
def detectTaskType (R : RegexEngine) (promptText : String)
    (config : OrchestratorConfigV21) : TaskType :=
  if promptText = "" then .general
  else
    let scores := config.taskTypeIndicators.map
      (fun e => (e.1, ttScore R promptText e.2))
    (scores.foldl scanStep (0, TaskType.general)).2

/-- The score the `detectComplexity` loop (lines 736-760) computes for
one tier: the keyword/pattern scoring of `ttScore` plus 20 when the
token estimate lies inside the tier's inclusive `tokenRange`. -/
def cxScore (R : RegexEngine) (promptText : String) (tokenCount : Nat)
    (indicator : ComplexityIndicator) : Nat :=
  let promptLower := lowerStr promptText
  (indicator.keywords.filter (fun kw =>
      strIncludes promptLower (lowerStr kw))).length * 10 +
  (indicator.patterns.filter (fun p =>
      (R.test p promptText).getD false)).length * 15 +
  (if tokenCount ≥ indicator.tokenRange.min ∧
      tokenCount ≤ indicator.tokenRange.max then 20 else 0)

/-- `detectComplexity` (lines 722-774): falsy prompt → `simple`;
otherwise score every tier and take the first strictly-maximal one in
the fixed initialization order `simple, medium, complex, advanced` of
the `scores` object, starting from `(0, medium)`. -/
def detectComplexity (R : RegexEngine) (promptText : String)
    (config : OrchestratorConfigV21) : Complexity :=
  if promptText = "" then .simple
  else
    let tokenCount := estimateTokenCount promptText
    let scores := levels.map
      (fun l => (l, cxScore R promptText tokenCount (config.indicators l)))
    (scores.foldl scanStep (0, Complexity.medium)).2

-- ===========================================================================
-- analyzePromptV21 (orchestrator.plugin.ts, lines 486-622)
-- ===========================================================================

/-- `interface AnalysisResult` (lines 111-120).  The constant
`confidence: 0.8` field is a floating-point literal never used by any
decision; it is omitted. -/
structure AnalysisResult where
  strategy : Strategy
  taskType : TaskType
  baseComplexity : Complexity
  complexity : Complexity
  recommendedModels : List String
  reasoning : List String
  contextAdjustments : Option (List String)
deriving DecidableEq, Repr

/-- Step 3 of `analyzePromptV21` (lines 505-553): the context-aware
adjustment passes, returning the final complexity, the
`contextAdjustments` entries and the `reasoning` entries they push.
Numbers inside trace strings use `Nat` division where the source uses
JavaScript float division (`${smallContextThreshold/1000}`); the trace
text influences no decision. -/
def contextAdjust (R : RegexEngine) (promptText sessionContext : String)
    (contextTokens : Nat) (config : OrchestratorConfigV21)
    (base : Complexity) :
    Except String (Complexity × List String × List String) :=
  match config.contextAware with
  | none => .ok (base, [], [])
  | some ca =>
    if ca.enabled then
      let planStep : Except String (Complexity × List String × List String) :=
        match ca.planAwareness with
        | some pa =>
          if pa.enabled then
            (detectPlan R sessionContext pa).map (fun hasPlan =>
              if hasPlan then
                let f := reduceComplexity base
                (f, ["Plan detected: " ++ base.str ++ " → " ++ f.str],
                    ["Detailed plan exists in context, reduced complexity"])
              else (base, [], []))
          else .ok (base, [], [])
        | none => .ok (base, [], [])
      match planStep with
      | .error e => .error e
      | .ok (c1, adj1, rs1) =>
        let (c2, adj2, rs2) :=
          match ca.subtaskDetection with
          | some sd =>
            if sd.enabled then
              if detectSubtask promptText sd ∧ c1 ≠ .simple then
                let f := reduceComplexity c1
                (f, ["Subtask detected: reduced to " ++ f.str],
                    ["Implementing subtask from plan, reduced complexity"])
              else (c1, [], [])
            else (c1, [], [])
          | none => (c1, [], [])
        let (c3, adj3, rs3) :=
          match ca.contextSize with
          | some cs =>
            if cs.enabled then
              if contextTokens < cs.smallContextThreshold then
                let f := reduceComplexity c2
                if c2 ≠ f then
                  (f, ["Small context (" ++ toString contextTokens ++ "K < " ++
                        toString (cs.smallContextThreshold / 1000) ++ "K): " ++
                        c2.str ++ " → " ++ f.str],
                      ["Small context indicates focused task, reduced complexity"])
                else (f, [], [])
              else if contextTokens > cs.largeContextThreshold then
                let f := raiseComplexity c2
                if c2 ≠ f then
                  (f, ["Large context (" ++ toString contextTokens ++ "K > " ++
                        toString (cs.largeContextThreshold / 1000) ++ "K): " ++
                        c2.str ++ " → " ++ f.str],
                      ["Large context indicates multi-faceted task, raised complexity"])
                else (f, [], [])
              else
                (c2, [],
                  ["Normal context (" ++ toString (contextTokens / 1000) ++
                    "K tokens), no adjustment"])
            else (c2, [], [])
          | none => (c2, [], [])
        .ok (c3, adj1 ++ adj2 ++ adj3, rs1 ++ rs2 ++ rs3)
    else .ok (base, [], [])

/-- Normalization of a matrix cell exactly as the `Array.isArray` /
`typeof "string"` branches at lines 559-567 perform it. -/
def cellModels : Option ModelSelection → List String
  | some (.arr ms) => ms
  | some (.single m) => [m]
  | none => []

/-- The `config.strategies[strategy]?.[taskType]?.[complexity]` lookup. -/
def lookupCell (config : OrchestratorConfigV21) (strategy : Strategy)
    (taskType : TaskType) (complexity : Complexity) : Option ModelSelection :=
  (config.strategies strategy).bind (fun sc => sc taskType complexity)

/-- Step 4 of `analyzePromptV21` (lines 555-584): matrix lookup, then
the `general` fallback (only when the detected task type is not already
`general`), then `defaultModel`; returns the model list together with
the `reasoning` entries pushed. -/
def selectModels (config : OrchestratorConfigV21) (strategy : Strategy)
    (taskType : TaskType) (finalComplexity : Complexity) :
    List String × List String :=
  let strategyModels := lookupCell config strategy taskType finalComplexity
  let (models0, rs0) :=
    match strategyModels with
    | some (.arr ms) =>
      (ms, ["Fallback chain from " ++ strategy.str ++ "." ++ taskType.str ++
             "." ++ finalComplexity.str ++ ": " ++ String.intercalate " → " ms])
    | some (.single m) =>
      ([m], ["Selected from " ++ strategy.str ++ "." ++ taskType.str ++
              "." ++ finalComplexity.str])
    | none => ([], [])
  let (models1, rs1) :=
    if models0.length = 0 ∧ taskType ≠ .general then
      (cellModels (lookupCell config strategy .general finalComplexity),
        ["Task type " ++ taskType.str ++ " not in strategy, using general fallback"])
    else (models0, [])
  if models1.length = 0 then
    ([config.defaultModel], rs0 ++ rs1 ++ ["No match in strategy matrix, using default model"])
  else (models1, rs0 ++ rs1)

/-- JavaScript truthiness of an optional string field
(`undefined` and `""` are falsy). -/
def jsTruthyStr : Option String → Bool
  | none => false
  | some s => s ≠ ""

/-- JavaScript truthiness of a matrix cell value at line 602
(`if (newModels)`): `undefined` and `""` are falsy, every array —
including the empty array — is truthy. -/
def selTruthy : Option ModelSelection → Bool
  | none => false
  | some (.single m) => m ≠ ""
  | some (.arr _) => true

/-- One file-pattern match test (lines 590-592):
`file.includes(override.pattern.replace("**/*", ""))`, where
`String.prototype.replace` with a string argument removes only the
*first* occurrence of `"**/*"`. -/
def removeFirst (needle : List Char) : List Char → List Char
  | [] => []
  | c :: rest =>
    if listPrefix needle (c :: rest) && !needle.isEmpty then
      List.drop (needle.length - 1) rest
    else c :: removeFirst needle rest

/-- `override.pattern.replace("**/*", "")`. -/
def stripGlobstar (pattern : String) : String :=
  ⟨removeFirst "**/*".data pattern.data⟩

/-- `file.includes(override.pattern.replace("**/*", ""))`. -/
def overrideMatches (pattern file : String) : Bool :=
  strIncludes file (stripGlobstar pattern)

/-- Step 5 of `analyzePromptV21` (lines 586-610), as a recursion over
the override list.  `files.find(...)` yields the *first* matching file;
`if (matchingFile)` then treats the empty string as no match.  When an
entry applies (or matches with neither field usable) the loop `break`s:
the rest of the list is never consulted. -/
def applyOverrides (config : OrchestratorConfigV21) (strategy : Strategy)
    (finalComplexity : Complexity) (files : List String)
    (models : List String) :
    List FilePatternOverride → List String × List String
  | [] => (models, [])
  | o :: rest =>
    match files.find? (fun file => overrideMatches o.pattern file) with
    | some matchingFile =>
      if matchingFile ≠ "" then
        if jsTruthyStr o.model then
          ([o.model.getD ""], ["File pattern override: " ++ o.reason])
        else
          match o.taskTypeOverride with
          | some newTaskType =>
            let newModels := lookupCell config strategy newTaskType finalComplexity
            if selTruthy newModels then
              (cellModels newModels,
                ["File pattern task override: " ++ newTaskType.str ++
                  " (" ++ o.reason ++ ")"])
            else (models, [])
          | none => (models, [])
      else applyOverrides config strategy finalComplexity files models rest
    | none => applyOverrides config strategy finalComplexity files models rest

/-- `analyzePromptV21` (lines 486-622).  `files` is `args.files`
(`none` when the caller supplies no touched files — the
`config.filePatternOverrides && args.files` guard).  The only possible
failure is the unguarded regex construction inside `detectPlan`. -/
def analyzePromptV21 (R : RegexEngine) (promptText sessionContext : String)
    (contextTokens : Nat) (config : OrchestratorConfigV21)
    (files : Option (List String)) (strategy : Strategy) :
    Except String AnalysisResult := do
  let taskType := detectTaskType R promptText config
  let baseComplexity := detectComplexity R promptText config
  let (finalComplexity, contextAdjustments, rsAdj) ←
    contextAdjust R promptText sessionContext contextTokens config baseComplexity
  let (models0, rsSel) := selectModels config strategy taskType finalComplexity
  let (models1, rsOvr) :=
    match config.filePatternOverrides, files with
    | some overrides, some fs =>
      applyOverrides config strategy finalComplexity fs models0 overrides
    | _, _ => (models0, [])
  pure {
    strategy := strategy
    taskType := taskType
    baseComplexity := baseComplexity
    complexity := finalComplexity
    recommendedModels := models1
    reasoning := ["Task type: " ++ taskType.str,
                  "Base complexity: " ++ baseComplexity.str] ++
                 rsAdj ++ rsSel ++ rsOvr
    contextAdjustments :=
      if contextAdjustments.length > 0 then some contextAdjustments else none }

-- ===========================================================================
-- Concrete configurations used in counterexamples and witnesses
-- ===========================================================================

/-- A complexity indicator that can never score: no keywords, no
patterns, and an empty token range (`min 1, max 0`). -/
def noCxIndicator : ComplexityIndicator := ⟨[], [], ⟨1, 0⟩⟩

/-- A configuration whose only active feature is plan awareness,
with all scoring tables empty. -/
def mkPlanCfg (pa : PlanAwareness) : OrchestratorConfigV21 where
  defaultModel := "default/model"
  contextAware := some ⟨true, some pa, none, none⟩
  strategies := fun _ => none
  taskTypeIndicators := []
  indicators := fun _ => noCxIndicator
  filePatternOverrides := none

/-- Plan awareness over the indicators "step 1", "step 2", "step 3"
with a reduction threshold of 3. -/
def paSteps : PlanAwareness := ⟨true, ["step 1", "step 2", "step 3"], 3⟩

/-- A configuration with everything inert. -/
def cfgBare : OrchestratorConfigV21 where
  defaultModel := "default/model"
  contextAware := none
  strategies := fun _ => none
  taskTypeIndicators := []
  indicators := fun _ => noCxIndicator
  filePatternOverrides := none

/-- Configuration whose `debugging` task type carries the empty-string
keyword, which every JavaScript string — including the empty prompt —
contains. -/
def cfgEmptyKeyword : OrchestratorConfigV21 where
  defaultModel := "default/model"
  contextAware := none
  strategies := fun _ => none
  taskTypeIndicators := [(.debugging, ⟨[""], []⟩)]
  indicators := fun _ => noCxIndicator
  filePatternOverrides := none

/-- Configuration whose `medium` tier token range contains 0 while the
`simple` tier's does not. -/
def cfgZeroTokens : OrchestratorConfigV21 where
  defaultModel := "default/model"
  contextAware := none
  strategies := fun _ => none
  taskTypeIndicators := []
  indicators := fun l =>
    match l with
    | .simple => ⟨[], [], ⟨200, 300⟩⟩
    | .medium => ⟨[], [], ⟨0, 100⟩⟩
    | _ => noCxIndicator
  filePatternOverrides := none

/-- The strategy matrix used by the override scenarios: the `debugging`
cell and the `general` cell are populated at tier `medium`, the
`planning` cell is absent. -/
def matOverride : TaskType → Complexity → Option ModelSelection := fun t c =>
  match t, c with
  | .debugging, .medium => some (.single "provider/y")
  | .general, .medium => some (.single "provider/x")
  | _, _ => none

/-- Configuration for the file-pattern-override scenarios: prompts
containing "bug" classify as `debugging`, and an override on paths
containing "security" redirects to task type `planning` (whose matrix
cell is absent). -/
def cfgOverride : OrchestratorConfigV21 where
  defaultModel := "provider/d"
  contextAware := none
  strategies := fun _ => some matOverride
  taskTypeIndicators := [(.debugging, ⟨["bug"], []⟩)]
  indicators := fun _ => noCxIndicator
  filePatternOverrides := some [⟨"security", none, some .planning, "security paths"⟩]

/-- Configuration with an unparseable plan indicator `"("` (unterminated
group) and otherwise empty tables. -/
def cfgBadPlan : OrchestratorConfigV21 where
  defaultModel := "default/model"
  contextAware := some ⟨true, some ⟨true, ["("], 3⟩, none, none⟩
  strategies := fun _ => none
  taskTypeIndicators := []
  indicators := fun _ => noCxIndicator
  filePatternOverrides := none

/-- Configuration with an unparseable plan indicator `"["` (unterminated
character class) and a well-formed, partially populated matrix. -/
def cfgBadPlanWf : OrchestratorConfigV21 where
  defaultModel := "any/model"
  contextAware := some ⟨true, some ⟨true, ["["], 2⟩, none, none⟩
  strategies := fun _ =>
    some (fun t c =>
      if t = .general ∧ c = .medium then some (.single "prov/m") else none)
  taskTypeIndicators := []
  indicators := fun _ => noCxIndicator
  filePatternOverrides := none

-- ===========================================================================
-- Specification-side definitions (formalizing the spec's wording, to be
-- compared with the code-derived definitions above)
-- ===========================================================================

/-- The maximum of the scores in a scored list (0 when empty). -/
def maxScoreList {α : Type} (scores : List (α × Nat)) : Nat :=
  scores.foldr (fun e m => max e.2 m) 0

/-- The first entry (in declared order) achieving the maximal score —
the spec's deterministic tie-break; `d` when the list is empty. -/
def firstMax {α : Type} (d : α) (scores : List (α × Nat)) : α :=
  match scores.find? (fun e => e.2 == maxScoreList scores) with
  | some e => e.1
  | none => d

/-- The spec's task-type score (§4.2): `10 × (count of keywords found
as substrings in normalized text) + 15 × (count of regex patterns
matching the raw prompt, case-insensitive)`, invalid patterns counting
zero. -/
def specTaskScore (R : RegexEngine) (promptText : String)
    (indicator : TaskTypeIndicator) : Nat :=
  10 * indicator.keywords.countP
        (fun kw => strIncludes (lowerStr promptText) (lowerStr kw)) +
  15 * indicator.patterns.countP (fun p => (R.test p promptText).getD false)

/-- The spec's complexity score (§4.3): the §4.2 form plus a `+20`
bonus when the inclusive `tokenRange` contains the token estimate. -/
def specCxScore (R : RegexEngine) (promptText : String)
    (indicator : ComplexityIndicator) : Nat :=
  10 * indicator.keywords.countP
        (fun kw => strIncludes (lowerStr promptText) (lowerStr kw)) +
  15 * indicator.patterns.countP (fun p => (R.test p promptText).getD false) +
  (if indicator.tokenRange.min ≤ estimateTokenCount promptText ∧
      estimateTokenCount promptText ≤ indicator.tokenRange.max then 20 else 0)

/-- The spec's `ModelSelection` normalization (§4.5): a single string
becomes a one-element list, an array is used as-is. -/
def normalizeSpec : ModelSelection → List String
  | .single m => [m]
  | .arr ms => ms

/-- The spec's resolution order (§4.5 steps 1-3):
`matrix[strategy][taskType][tier]` if present, else
`matrix[strategy]["general"][tier]` if present, else `defaultModel` as
a single-element list. -/
def resolveSpec (config : OrchestratorConfigV21) (strategy : Strategy)
    (taskType : TaskType) (tier : Complexity) : List String :=
  match lookupCell config strategy taskType tier with
  | some sel => normalizeSpec sel
  | none =>
    match lookupCell config strategy .general tier with
    | some sel => normalizeSpec sel
    | none => [config.defaultModel]

/-- The §3 invariant used by the totality claim: every populated matrix
cell is a non-empty `ModelSelection`. -/
def wfConfig (config : OrchestratorConfigV21) : Prop :=
  ∀ (s : Strategy) (t : TaskType) (c : Complexity),
    lookupCell config s t c ≠ some (.arr [])

/-- Every plan indicator the configuration will compile (when plan
awareness is active) is a valid regex for the engine, so `detectPlan`
cannot throw. -/
def planSafe (R : RegexEngine) (config : OrchestratorConfigV21)
    (context : String) : Prop :=
  match config.contextAware with
  | none => True
  | some ca =>
    ca.enabled = true →
      match ca.planAwareness with
      | none => True
      | some pa =>
        pa.enabled = true →
          ∀ ind ∈ pa.planIndicators,
            (R.countMatches (escapeDots ind) context).isSome

/-- Provenance of a selected model: a matrix cell, a hard override
entry, or the configured default. -/
def modelFrom (config : OrchestratorConfigV21) (m : String) : Prop :=
  (∃ s t c sel, lookupCell config s t c = some sel ∧ m ∈ normalizeSpec sel) ∨
  (∃ o ∈ config.filePatternOverrides.getD [], o.model = some m) ∨
  m = config.defaultModel

-- ===========================================================================
-- Helper lemmas
-- ===========================================================================

theorem maxScoreList_cons {α : Type} (a : α × Nat) (l : List (α × Nat)) :
    maxScoreList (a :: l) = max a.2 (maxScoreList l) := rfl

theorem maxScoreList_cons_ne {α : Type} (a : α × Nat) (l : List (α × Nat))
    (hae : a.2 ≠ maxScoreList (a :: l)) :
    maxScoreList (a :: l) = maxScoreList l := by
  rw [maxScoreList_cons]
  rcases Nat.le_total a.2 (maxScoreList l) with hle | hge
  · exact max_eq_right hle
  · exact absurd (by rw [maxScoreList_cons, max_eq_left hge]) hae

/-- A scan with `scanStep` over scores none of which exceed the
starting maximum leaves the accumulator unchanged. -/
theorem foldScan_le {α : Type} (l : List (α × Nat)) :
    ∀ (m : Nat) (d : α), maxScoreList l ≤ m →
      l.foldl scanStep (m, d) = (m, d) := by
  induction l with
  | nil => intro m d _; rfl
  | cons a l ih =>
    intro m d h
    rw [maxScoreList_cons] at h
    have ha : ¬ m < a.2 := Nat.not_lt.mpr (le_trans (le_max_left _ _) h)
    have hstep : scanStep (m, d) a = (m, d) := by simp [scanStep, ha]
    rw [List.foldl_cons, hstep]
    exact ih m d (le_trans (le_max_right _ _) h)

/-- A scan with `scanStep` starting strictly below the maximal score
ends at the maximal score, carried by the first entry achieving it. -/
theorem foldScan_gt {α : Type} (l : List (α × Nat)) :
    ∀ (m : Nat) (d : α) (e : α × Nat),
      m < maxScoreList l →
      l.find? (fun x => x.2 == maxScoreList l) = some e →
      l.foldl scanStep (m, d) = (maxScoreList l, e.1) := by
  induction l with
  | nil => intro m d e h _; simp [maxScoreList] at h
  | cons a l ih =>
    intro m d e h hfind
    by_cases hae : a.2 = maxScoreList (a :: l)
    · rw [List.find?_cons_of_pos _ (by simp [hae])] at hfind
      injection hfind with hfe
      subst hfe
      have hma : m < a.2 := by rw [hae]; exact h
      have hstep : scanStep (m, d) a = (a.2, a.1) := by simp [scanStep, hma]
      rw [List.foldl_cons, hstep]
      have hle : maxScoreList l ≤ a.2 := by
        rw [hae, maxScoreList_cons]
        exact le_max_right _ _
      rw [foldScan_le l a.2 a.1 hle, hae]
    · have hMM : maxScoreList (a :: l) = maxScoreList l :=
        maxScoreList_cons_ne a l hae
      rw [List.find?_cons_of_neg _ (by simp [hae])] at hfind
      rw [hMM] at hfind h ⊢
      rw [List.foldl_cons]
      have haleM : a.2 ≤ maxScoreList l := by
        rw [← hMM, maxScoreList_cons]
        exact le_max_left _ _
      by_cases ham : m < a.2
      · have hstep : scanStep (m, d) a = (a.2, a.1) := by simp [scanStep, ham]
        have halt : a.2 < maxScoreList l :=
          lt_of_le_of_ne haleM (fun hcon => hae (by rw [hMM]; exact hcon))
        rw [hstep]
        exact ih a.2 a.1 e halt hfind
      · have hstep : scanStep (m, d) a = (m, d) := by simp [scanStep, ham]
        rw [hstep]
        exact ih m d e h hfind

/-- A non-zero maximal score is achieved by some entry. -/
theorem maxScoreList_attain {α : Type} (l : List (α × Nat)) :
    maxScoreList l ≠ 0 →
    (l.find? (fun x => x.2 == maxScoreList l)).isSome := by
  induction l with
  | nil => intro h; simp [maxScoreList] at h
  | cons a l ih =>
    intro h
    by_cases hae : a.2 = maxScoreList (a :: l)
    · rw [List.find?_cons_of_pos _ (by simp [hae])]
      rfl
    · have hMM : maxScoreList (a :: l) = maxScoreList l :=
        maxScoreList_cons_ne a l hae
      rw [List.find?_cons_of_neg _ (by simp [hae])]
      rw [hMM] at h ⊢
      exact ih h

/-- A list prefix only uses characters of the larger list. -/
theorem listPrefix_subset (p : List Char) :
    ∀ l : List Char, listPrefix p l = true → ∀ x ∈ p, x ∈ l := by
  induction p with
  | nil => intro l _ x hx; cases hx
  | cons a as ih =>
    intro l hp x hx
    cases l with
    | nil => simp [listPrefix] at hp
    | cons b bs =>
      simp only [listPrefix, Bool.and_eq_true, beq_iff_eq] at hp
      rcases List.mem_cons.mp hx with hxa | hxas
      · exact hxa ▸ hp.1 ▸ List.mem_cons_self b bs
      · exact List.mem_cons_of_mem b (ih bs hp.2 x hxas)

/-- A substring only uses characters of the containing string. -/
theorem occursIn_subset (p : List Char) :
    ∀ l : List Char, occursIn p l = true → ∀ x ∈ p, x ∈ l := by
  intro l
  induction l with
  | nil =>
    intro hp x hx
    simp only [occursIn, List.isEmpty_iff] at hp
    subst hp; cases hx
  | cons c rest ih =>
    intro hp x hx
    rcases Bool.or_eq_true .. |>.mp hp with hpre | hocc
    · exact listPrefix_subset p (c :: rest) hpre x hx
    · exact List.mem_cons_of_mem c (ih hocc x hx)

/-- When the needle does not occur, `removeFirst` is the identity. -/
theorem removeFirst_of_not_occurs (n : List Char) :
    ∀ l : List Char, occursIn n l = false → removeFirst n l = l := by
  intro l
  induction l with
  | nil => intro _; rfl
  | cons c rest ih =>
    intro h
    simp only [occursIn, Bool.or_eq_false_iff] at h
    simp only [removeFirst, h.1, Bool.false_and, if_neg Bool.false_ne_true]
    rw [ih h.2]

-- ===========================================================================
-- Claim theorems
-- ===========================================================================

/-- C1 (counterexample): on the empty-string prompt the complexity
classifier returns `simple` — via the falsy-input early return at line
724 — and not `medium` as the claim states. -/
theorem detectComplexity_empty_not_medium :
    detectComplexity litEngine "" cfgBare = Complexity.simple ∧
    Complexity.simple ≠ Complexity.medium := by
  exact ⟨by decide, by decide⟩

/-- C1 (amended): for an empty-string prompt, classification raises no
exception (both classifiers are total functions and take their early
return), the task-type classifier returns `general`, and the
complexity classifier returns `simple` — the explicit falsy-input
fallback at line 724 — not `medium`. -/
theorem empty_prompt_defaults (R : RegexEngine) (config : OrchestratorConfigV21) :
    detectTaskType R "" config = TaskType.general ∧
    detectComplexity R "" config = Complexity.simple := by
  constructor <;> simp [detectTaskType, detectComplexity]

/-- C6 (counterexample): with a configuration whose sole task-type
entry (`debugging`) carries the empty keyword, that entry scores
10 > 0 on the empty prompt — so by the claim's universal scoring rule
`debugging` should win — yet `detectTaskType` returns `general`
because of the falsy-input early return at line 678. -/
theorem empty_prompt_taskType_ignores_scores :
    cfgEmptyKeyword.taskTypeIndicators =
      [(TaskType.debugging, ⟨[""], []⟩)] ∧
    ttScore litEngine "" ⟨[""], []⟩ = 10 ∧
    specTaskScore litEngine "" ⟨[""], []⟩ = 10 ∧
    detectTaskType litEngine "" cfgEmptyKeyword = TaskType.general ∧
    TaskType.general ≠ TaskType.debugging := by
  refine ⟨rfl, by decide, by decide, by decide, by decide⟩

/-- C6 (amended): for every NON-EMPTY prompt, the task-type classifier
scores every configured task type by 10 per keyword (case-insensitive
substring) plus 15 per matching case-insensitive regex pattern, picks
the strictly highest score with ties broken by the first entry in
declared order, and returns `general` when no score is positive.  (For
the empty prompt the early return yields `general` regardless of
scores.) -/
theorem detectTaskType_spec (R : RegexEngine) (promptText : String)
    (config : OrchestratorConfigV21) (h : promptText ≠ "") :
    detectTaskType R promptText config =
      (let scores := config.taskTypeIndicators.map
          (fun e => (e.1, specTaskScore R promptText e.2));
       if maxScoreList scores = 0 then TaskType.general
       else firstMax TaskType.general scores) := by
  have hscore : (fun (e : TaskType × TaskTypeIndicator) =>
      (e.1, ttScore R promptText e.2)) =
      (fun e => (e.1, specTaskScore R promptText e.2)) := by
    funext e
    simp [ttScore, specTaskScore, List.countP_eq_length_filter, Nat.mul_comm]
  simp only [detectTaskType, if_neg h, hscore]
  set scores := config.taskTypeIndicators.map
      (fun e => (e.1, specTaskScore R promptText e.2)) with hsc
  by_cases h0 : maxScoreList scores = 0
  · rw [if_pos h0, foldScan_le scores 0 TaskType.general (by omega)]
  · rw [if_neg h0]
    obtain ⟨e, he⟩ := Option.isSome_iff_exists.mp (maxScoreList_attain scores h0)
    rw [foldScan_gt scores 0 TaskType.general e (Nat.pos_of_ne_zero h0) he]
    simp [firstMax, he]

/-- C6 (witness): the amended classifier equation applied to the
concrete prompt "fix the bug" under `cfgOverride`. -/
theorem detectTaskType_spec_witness :
    ("fix the bug" ≠ "") ∧
    detectTaskType litEngine "fix the bug" cfgOverride = TaskType.debugging := by
  refine ⟨by decide, ?_⟩
  rw [detectTaskType_spec litEngine "fix the bug" cfgOverride (by decide)]
  decide

/-- C7 (counterexample): on the empty prompt (token estimate 0) only
the `medium` tier of `cfgZeroTokens` scores (the +20 token-range
bonus), so by the claim's universal rule `medium` should win — yet
`detectComplexity` returns `simple` because of the falsy-input early
return at line 724. -/
theorem empty_prompt_complexity_ignores_scores :
    estimateTokenCount "" = 0 ∧
    specCxScore litEngine "" (cfgZeroTokens.indicators .medium) = 20 ∧
    specCxScore litEngine "" (cfgZeroTokens.indicators .simple) = 0 ∧
    specCxScore litEngine "" (cfgZeroTokens.indicators .complex) = 0 ∧
    specCxScore litEngine "" (cfgZeroTokens.indicators .advanced) = 0 ∧
    detectComplexity litEngine "" cfgZeroTokens = Complexity.simple ∧
    Complexity.simple ≠ Complexity.medium := by
  refine ⟨by decide, by decide, by decide, by decide, by decide, by decide, by decide⟩

/-- C7 (amended): for every NON-EMPTY prompt, complexity
classification scores every tier with the 10-per-keyword and
15-per-pattern weights plus a +20 bonus for a tier whose inclusive
`tokenRange` contains the token estimate `ceil(length/4)`; the highest
scoring tier wins (ties to the earlier tier in canonical order,
`medium` when no score is positive).  (For the empty prompt the early
return yields `simple` regardless of scores.) -/
theorem detectComplexity_spec (R : RegexEngine) (promptText : String)
    (config : OrchestratorConfigV21) (h : promptText ≠ "") :
    (promptText.length ≤ 4 * estimateTokenCount promptText ∧
      4 * estimateTokenCount promptText < promptText.length + 4) ∧
    detectComplexity R promptText config =
      (let scores := levels.map
          (fun l => (l, specCxScore R promptText (config.indicators l)));
       if maxScoreList scores = 0 then Complexity.medium
       else firstMax Complexity.medium scores) := by
  constructor
  · have he : estimateTokenCount promptText = (promptText.length + 3) / 4 := rfl
    omega
  · have hscore : (fun (l : Complexity) =>
        (l, cxScore R promptText (estimateTokenCount promptText)
          (config.indicators l))) =
        (fun l => (l, specCxScore R promptText (config.indicators l))) := by
      funext l
      simp [cxScore, specCxScore, List.countP_eq_length_filter, Nat.mul_comm,
        ge_iff_le]
    simp only [detectComplexity, if_neg h, hscore]
    set scores := levels.map
        (fun l => (l, specCxScore R promptText (config.indicators l))) with hsc
    by_cases h0 : maxScoreList scores = 0
    · rw [if_pos h0, foldScan_le scores 0 Complexity.medium (by omega)]
    · rw [if_neg h0]
      obtain ⟨e, he⟩ := Option.isSome_iff_exists.mp (maxScoreList_attain scores h0)
      rw [foldScan_gt scores 0 Complexity.medium e (Nat.pos_of_ne_zero h0) he]
      simp [firstMax, he]

/-- C7 (witness): the amended classifier equation applied to the
concrete prompt "fix the bug" under `cfgZeroTokens`. -/
theorem detectComplexity_spec_witness :
    ("fix the bug" ≠ "") ∧
    detectComplexity litEngine "fix the bug" cfgZeroTokens = Complexity.medium := by
  refine ⟨by decide, ?_⟩
  rw [(detectComplexity_spec litEngine "fix the bug" cfgZeroTokens (by decide)).2]
  decide

/-- C9: the Context Adjuster's tier steps stay on the canonical
ordered `levels` list and move at most one index per invocation;
lowering at the minimum tier and raising at the maximum tier leave the
tier unchanged. -/
theorem adjuster_one_step :
    (∀ c : Complexity, reduceComplexity c ∈ levels ∧ raiseComplexity c ∈ levels) ∧
    (∀ c : Complexity, reduceComplexity c = c ∨
      levels.indexOf (reduceComplexity c) + 1 = levels.indexOf c) ∧
    (∀ c : Complexity, raiseComplexity c = c ∨
      levels.indexOf (raiseComplexity c) = levels.indexOf c + 1) ∧
    reduceComplexity Complexity.simple = Complexity.simple ∧
    raiseComplexity Complexity.advanced = Complexity.advanced := by
  refine ⟨by decide, by decide, by decide, by decide, by decide⟩

/-- C10: file-pattern override matching removes only the literal
substring "**/*" from the pattern and then tests plain substring
containment, so a pattern that (after stripping) still contains a `*`
matches no star-free path, while a wildcard-free pattern matches
exactly the paths containing it as a substring. -/
theorem overridePattern_semantics (pattern file : String) :
    (occursIn "**/*".data pattern.data = false → stripGlobstar pattern = pattern) ∧
    ('*' ∈ (stripGlobstar pattern).data → '*' ∉ file.data →
      overrideMatches pattern file = false) ∧
    ('*' ∉ pattern.data →
      (overrideMatches pattern file = true ↔ strIncludes file pattern = true)) := by
  refine ⟨?_, ?_, ?_⟩
  · intro h
    unfold stripGlobstar
    rw [removeFirst_of_not_occurs _ _ h]
  · intro hstar hfile
    cases hof : overrideMatches pattern file
    · rfl
    · exfalso
      have hocc : occursIn (stripGlobstar pattern).data file.data = true := hof
      exact hfile (occursIn_subset _ _ hocc '*' hstar)
  · intro hns
    have hno : occursIn "**/*".data pattern.data = false := by
      cases hoc : occursIn "**/*".data pattern.data
      · rfl
      · exact absurd (occursIn_subset _ _ hoc '*' (by decide)) hns
    have hs : stripGlobstar pattern = pattern := by
      unfold stripGlobstar
      rw [removeFirst_of_not_occurs _ _ hno]
    unfold overrideMatches
    rw [hs]

/-- C10 (witness): a pattern with a bare `*` wildcard matches no
ordinary path; a wildcard-free pattern matches by substring
containment. -/
theorem overridePattern_semantics_witness :
    overrideMatches "db/migrations/*.sql" "db/migrations/001.sql" = false ∧
    overrideMatches "security/" "app/security/login.ts" = true := by
  constructor
  · exact (overridePattern_semantics "db/migrations/*.sql"
      "db/migrations/001.sql").2.1 (by decide) (by decide)
  · exact ((overridePattern_semantics "security/"
      "app/security/login.ts").2.2 (by decide)).mpr (by decide)

/-- C5: steps 1-3 of model resolution (the matrix cell, then the
`general` cell, then `defaultModel`, with a single string normalized
to a one-element list and an array used as-is) coincide with the
spec's resolution order, provided the consulted cells satisfy the §3
non-emptiness invariant. -/
theorem resolution_matches_spec (config : OrchestratorConfigV21)
    (strategy : Strategy) (taskType : TaskType) (tier : Complexity)
    (h1 : lookupCell config strategy taskType tier ≠ some (.arr []))
    (h2 : lookupCell config strategy .general tier ≠ some (.arr [])) :
    (selectModels config strategy taskType tier).1 =
      resolveSpec config strategy taskType tier := by
  unfold selectModels resolveSpec
  cases hc : lookupCell config strategy taskType tier with
  | some sel =>
    cases sel with
    | single m => simp [normalizeSpec]
    | arr ms =>
      have hne : ms ≠ [] := fun hms => h1 (by rw [hc, hms])
      simp [normalizeSpec, hne]
  | none =>
    by_cases ht : taskType = TaskType.general
    · subst ht
      simp [hc, cellModels, normalizeSpec]
    · cases hg : lookupCell config strategy .general tier with
      | some sel =>
        cases sel with
        | single m => simp [ht, hg, cellModels, normalizeSpec]
        | arr ms =>
          have hne : ms ≠ [] := fun hms => h2 (by rw [hg, hms])
          simp [ht, hg, cellModels, normalizeSpec, hne]
      | none => simp [ht, hg, cellModels, normalizeSpec]

/-- C5 (witness): the resolution equation applied at the `debugging`
cell of `cfgOverride`. -/
theorem resolution_matches_spec_witness :
    (lookupCell cfgOverride .balanced .debugging .medium ≠
      some (.arr [])) ∧
    (selectModels cfgOverride .balanced .debugging .medium).1 =
      resolveSpec cfgOverride .balanced .debugging .medium :=
  ⟨by decide,
    resolution_matches_spec cfgOverride .balanced .debugging .medium
      (by decide) (by decide)⟩

/-- C2 (counterexample): with plan awareness configured over "step 1",
"step 2", "step 3" and `minStepsForReduction = 3`, a prompt containing
all three indicators does NOT trigger the reduction when the session
context is empty: `detectPlan` is called on the session context (line
511), not on the prompt, so the final complexity stays `medium`
instead of dropping one step as the claim states. -/
theorem plan_in_prompt_not_detected :
    strIncludes "step 1, step 2, step 3: implement step 1 from the plan"
      "step 1" = true ∧
    strIncludes "step 1, step 2, step 3: implement step 1 from the plan"
      "step 2" = true ∧
    strIncludes "step 1, step 2, step 3: implement step 1 from the plan"
      "step 3" = true ∧
    paSteps.minStepsForReduction = 3 ∧
    (analyzePromptV21 litEngine
        "step 1, step 2, step 3: implement step 1 from the plan" "" 0
        (mkPlanCfg paSteps) none .balanced).toOption.map
      (fun r => (r.baseComplexity, r.complexity)) =
      some (Complexity.medium, Complexity.medium) ∧
    reduceComplexity Complexity.medium ≠ Complexity.medium := by
  refine ⟨by decide, by decide, by decide, by decide, by decide, by decide⟩

/-- The all-zero complexity indicator scores zero for every prompt and
token count. -/
theorem cxScore_no (R : RegexEngine) (p : String) (tc : Nat) :
    cxScore R p tc noCxIndicator = 0 := by
  simp only [cxScore, noCxIndicator]
  rw [if_neg (by omega)]
  simp

/-- Under a `mkPlanCfg` configuration every non-empty prompt gets base
complexity `medium` (all scores are zero, so the loop default wins). -/
theorem detectComplexity_mkPlanCfg (R : RegexEngine) (p : String)
    (pa : PlanAwareness) (hp : p ≠ "") :
    detectComplexity R p (mkPlanCfg pa) = Complexity.medium := by
  simp [detectComplexity, if_neg hp, mkPlanCfg, cxScore_no, levels, scanStep]

/-- C2 (amended): plan detection counts occurrences of each configured
plan-indicator across the SESSION CONTEXT (not the prompt text), and
lowers the complexity tier by exactly one step when the total count
reaches `minStepsForReduction`: whenever `detectPlan` fires on the
session context, a non-empty prompt's base `medium` is lowered to
`simple`. -/
theorem plan_in_context_reduces (R : RegexEngine) (pa : PlanAwareness)
    (promptText context : String) (hp : promptText ≠ "")
    (hen : pa.enabled = true)
    (hplan : detectPlan R context pa = Except.ok true) :
    (analyzePromptV21 R promptText context 0 (mkPlanCfg pa) none
        .balanced).toOption.map
      (fun r => (r.baseComplexity, r.complexity)) =
      some (Complexity.medium, Complexity.simple) := by
  have hbase := detectComplexity_mkPlanCfg R promptText pa hp
  have htt : detectTaskType R promptText (mkPlanCfg pa) = TaskType.general := by
    simp [detectTaskType, if_neg hp, mkPlanCfg]
  have hadj : contextAdjust R promptText context 0 (mkPlanCfg pa)
      Complexity.medium =
      .ok (Complexity.simple,
        ["Plan detected: medium → simple"],
        ["Detailed plan exists in context, reduced complexity"]) := by
    simp [contextAdjust, mkPlanCfg, hen, hplan, reduceComplexity, levels,
      Complexity.str, Except.map]
  simp only [analyzePromptV21, hbase, htt, hadj]
  simp [selectModels, lookupCell, mkPlanCfg, cellModels, Except.toOption,
    Bind.bind, Except.bind, Pure.pure, Except.pure]

/-- C2 (witness): the amended reduction applied at a concrete prompt
and a session context containing the three step markers. -/
theorem plan_in_context_reduces_witness :
    detectPlan litEngine "step 1 a step 2 b step 3" paSteps =
      Except.ok true ∧
    (analyzePromptV21 litEngine "do it" "step 1 a step 2 b step 3" 0
        (mkPlanCfg paSteps) none .balanced).toOption.map
      (fun r => (r.baseComplexity, r.complexity)) =
      some (Complexity.medium, Complexity.simple) :=
  ⟨rfl,
    plan_in_context_reduces litEngine paSteps "do it"
      "step 1 a step 2 b step 3" (by decide) rfl rfl⟩

/-- C3 (counterexample): under `cfgOverride`, the prompt "fix the bug"
resolves to the `debugging` cell ["provider/y"]; the matching override
redirects to task type `planning`, whose cell is absent while the
`general` cell holds "provider/x".  The claim's re-run of steps 1-3
would therefore yield ["provider/x"], but the code keeps
["provider/y"]: only the direct cell is consulted (line 601), with no
`general`/default fallback. -/
theorem taskTypeOverride_no_general_fallback :
    lookupCell cfgOverride .balanced .planning .medium = none ∧
    cellModels (lookupCell cfgOverride .balanced .general .medium) =
      ["provider/x"] ∧
    (analyzePromptV21 litEngine "fix the bug" "" 0 cfgOverride
        (some ["app/security/login.ts"]) .balanced).toOption.map
      (fun r => r.recommendedModels) = some ["provider/y"] ∧
    (["provider/y"] : List String) ≠ ["provider/x"] := by
  refine ⟨by decide, by decide, by decide, by decide⟩

/-- C3 (amended): only the first file-pattern override entry whose
pattern matches a supplied path is applied (later entries are never
consulted); a `model` override replaces the whole selection by that
single model; a `taskTypeOverride` re-runs ONLY resolution step 1 —
the direct `matrix[strategy][override][tier]` cell — replacing the
selection when that cell is present (and truthy) and leaving the
selection unchanged otherwise, with no `general` or `defaultModel`
re-resolution. -/
theorem override_first_match (config : OrchestratorConfigV21)
    (strategy : Strategy) (tier : Complexity) (files models : List String)
    (o : FilePatternOverride) (rest : List FilePatternOverride)
    (f : String)
    (hf : files.find? (fun file => overrideMatches o.pattern file) = some f)
    (hne : f ≠ "") :
    (applyOverrides config strategy tier files models (o :: rest)).1 =
      (if jsTruthyStr o.model then [o.model.getD ""]
       else
         match o.taskTypeOverride with
         | some t =>
           if selTruthy (lookupCell config strategy t tier) then
             cellModels (lookupCell config strategy t tier)
           else models
         | none => models) := by
  unfold applyOverrides
  rw [hf]
  dsimp only
  rw [if_pos hne]
  by_cases hm : jsTruthyStr o.model = true
  · simp [hm]
  · simp only [Bool.not_eq_true] at hm
    simp only [hm, Bool.false_eq_true, if_false]
    cases o.taskTypeOverride with
    | none => rfl
    | some t =>
      by_cases hsel : selTruthy (lookupCell config strategy t tier) = true
      · simp [hsel]
      · simp only [Bool.not_eq_true] at hsel
        simp [hsel]

/-- C3 (witness): the amended override behavior at the concrete
`cfgOverride` entry, which keeps the prior selection because the
`planning` cell is absent. -/
theorem override_first_match_witness :
    (["app/security/login.ts"].find?
        (fun file => overrideMatches "security" file) =
      some "app/security/login.ts") ∧
    (applyOverrides cfgOverride .balanced .medium ["app/security/login.ts"]
        ["provider/y"] [⟨"security", none, some .planning, "security paths"⟩]).1 =
      ["provider/y"] := by
  refine ⟨by decide, ?_⟩
  rw [override_first_match cfgOverride .balanced .medium
      ["app/security/login.ts"] ["provider/y"]
      ⟨"security", none, some .planning, "security paths"⟩ []
      "app/security/login.ts" (by decide) (by decide)]
  decide

/-- A plan indicator whose compiled form the engine rejects makes
`countPlanSteps` fail. -/
theorem countPlanSteps_error (R : RegexEngine) (context : String)
    (ind : String)
    (hbad : R.countMatches (escapeDots ind) context = none) :
    ∀ l : List String, ind ∈ l →
      ∃ e, countPlanSteps R context l = .error e := by
  intro l
  induction l with
  | nil => intro h; cases h
  | cons a rest ih =>
    intro hmem
    rcases List.mem_cons.mp hmem with rfl | hmem'
    · exact ⟨"SyntaxError: invalid regular expression " ++ ind,
        by simp [countPlanSteps, hbad]⟩
    · cases hc : R.countMatches (escapeDots a) context with
      | none =>
        exact ⟨"SyntaxError: invalid regular expression " ++ a,
          by simp [countPlanSteps, hc]⟩
      | some n =>
        obtain ⟨e, he⟩ := ih hmem'
        exact ⟨e, by simp [countPlanSteps, hc, he, Except.map]⟩

/-- C4 (counterexample): a malformed plan indicator is NOT skipped:
`detectPlan` compiles plan indicators without a `try`/`catch` (line
632), so with the invalid pattern "(" configured, the whole
classification call raises instead of treating the pattern as
non-matching. -/
theorem invalid_plan_indicator_throws :
    litEngine.countMatches (escapeDots "(") "some context" = none ∧
    (analyzePromptV21 litEngine "hello" "some context" 0 cfgBadPlan none
        .balanced).toOption = none := by
  refine ⟨by decide, by decide⟩

/-- C4 (amended): an invalid regex pattern in the task-type or
complexity indicator tables is skipped silently (it contributes zero
score, by the per-pattern `try`/`catch`), but a plan indicator whose
compiled form is invalid makes `detectPlan` — and hence the
classification call — raise. -/
theorem invalid_pattern_skipped :
    (∀ (R : RegexEngine) (promptText p : String) (ind : TaskTypeIndicator),
      R.test p promptText = none →
      ttScore R promptText ⟨ind.keywords, p :: ind.patterns⟩ =
        ttScore R promptText ind) ∧
    (∀ (R : RegexEngine) (promptText p : String) (tc : Nat)
        (ind : ComplexityIndicator),
      R.test p promptText = none →
      cxScore R promptText tc ⟨ind.keywords, p :: ind.patterns, ind.tokenRange⟩ =
        cxScore R promptText tc ind) ∧
    (∀ (R : RegexEngine) (context : String) (pa : PlanAwareness)
        (ind : String),
      ind ∈ pa.planIndicators →
      R.countMatches (escapeDots ind) context = none →
      ∃ e, detectPlan R context pa = .error e) := by
  refine ⟨?_, ?_, ?_⟩
  · intro R promptText p ind hp
    simp [ttScore, hp]
  · intro R promptText p tc ind hp
    simp [cxScore, hp]
  · intro R context pa ind hmem hbad
    obtain ⟨e, he⟩ := countPlanSteps_error R context ind hbad pa.planIndicators hmem
    exact ⟨e, by simp [detectPlan, he, Except.map]⟩

/-- C4 (witness): the skip-versus-raise dichotomy at the invalid
pattern "(". -/
theorem invalid_pattern_skipped_witness :
    litEngine.test "(" "hello" = none ∧
    ttScore litEngine "hello" ⟨[], ["("]⟩ = ttScore litEngine "hello" ⟨[], []⟩ ∧
    (∃ e, detectPlan litEngine "ctx" ⟨true, ["("], 3⟩ = .error e) := by
  refine ⟨by decide, ?_, ?_⟩
  · exact invalid_pattern_skipped.1 litEngine "hello" "(" ⟨[], []⟩ (by decide)
  · exact invalid_pattern_skipped.2.2 litEngine "ctx" ⟨true, ["("], 3⟩ "("
      (by decide) (by decide)

theorem cellModels_some (sel : ModelSelection) :
    cellModels (some sel) = normalizeSpec sel := by
  cases sel <;> rfl

/-- Step 4 always resolves to the direct cell, the general cell, or
the default model. -/
theorem selectModels_cases (config : OrchestratorConfigV21)
    (strategy : Strategy) (taskType : TaskType) (tier : Complexity) :
    (selectModels config strategy taskType tier).1 = [config.defaultModel] ∨
    (∃ sel, lookupCell config strategy taskType tier = some sel ∧
      (selectModels config strategy taskType tier).1 = normalizeSpec sel) ∨
    (∃ sel, lookupCell config strategy .general tier = some sel ∧
      (selectModels config strategy taskType tier).1 = normalizeSpec sel) := by
  cases hc : lookupCell config strategy taskType tier with
  | some sel =>
    cases sel with
    | single m =>
      right; left
      exact ⟨.single m, rfl, by simp [selectModels, hc, normalizeSpec]⟩
    | arr ms =>
      by_cases hms : ms = []
      · subst hms
        by_cases ht : taskType = TaskType.general
        · subst ht
          left
          simp [selectModels, hc]
        · cases hg : lookupCell config strategy .general tier with
          | some sel2 =>
            by_cases h2 : normalizeSpec sel2 = []
            · left
              simp [selectModels, hc, ht, hg, cellModels_some, h2]
            · right; right
              exact ⟨sel2, rfl,
                by simp [selectModels, hc, ht, hg, cellModels_some, h2]⟩
          | none =>
            left
            simp [selectModels, hc, ht, hg, cellModels]
      · right; left
        exact ⟨.arr ms, rfl, by simp [selectModels, hc, normalizeSpec, hms]⟩
  | none =>
    by_cases ht : taskType = TaskType.general
    · subst ht
      left
      simp [selectModels, hc, cellModels]
    · cases hg : lookupCell config strategy .general tier with
      | some sel2 =>
        by_cases h2 : normalizeSpec sel2 = []
        · left
          simp [selectModels, hc, ht, hg, cellModels_some, h2]
        · right; right
          exact ⟨sel2, rfl,
            by simp [selectModels, hc, ht, hg, cellModels_some, h2]⟩
      | none =>
        left
        simp [selectModels, hc, ht, hg, cellModels]

/-- Step 4 never returns an empty selection (the `defaultModel`
catch-all at lines 581-584). -/
theorem selectModels_ne_nil (config : OrchestratorConfigV21)
    (strategy : Strategy) (taskType : TaskType) (tier : Complexity) :
    (selectModels config strategy taskType tier).1 ≠ [] := by
  unfold selectModels
  dsimp only
  split <;> split
  · simp
  · next h => intro hcon; simp at hcon; simp [hcon] at h
  · simp
  · next h => intro hcon; simp at hcon; simp [hcon] at h

/-- Every model produced by step 4 comes from the matrix or the
default. -/
theorem selectModels_from (config : OrchestratorConfigV21)
    (strategy : Strategy) (taskType : TaskType) (tier : Complexity) :
    ∀ m ∈ (selectModels config strategy taskType tier).1,
      modelFrom config m := by
  intro m hm
  rcases selectModels_cases config strategy taskType tier with
    h | ⟨sel, hsel, h⟩ | ⟨sel, hsel, h⟩
  · rw [h] at hm
    right; right
    simpa using hm
  · rw [h] at hm
    left
    exact ⟨strategy, taskType, tier, sel, hsel, hm⟩
  · rw [h] at hm
    left
    exact ⟨strategy, .general, tier, sel, hsel, hm⟩

/-- The override pass preserves non-emptiness under the §3 matrix
invariant. -/
theorem applyOverrides_ne_nil (config : OrchestratorConfigV21)
    (strategy : Strategy) (tier : Complexity) (files : List String)
    (hwf : wfConfig config) :
    ∀ (overrides : List FilePatternOverride) (models : List String),
      models ≠ [] →
      (applyOverrides config strategy tier files models overrides).1 ≠ [] := by
  intro overrides
  induction overrides with
  | nil => intro models hm; exact hm
  | cons o rest ih =>
    intro models hm
    unfold applyOverrides
    cases hf : files.find? (fun file => overrideMatches o.pattern file) with
    | none => exact ih models hm
    | some f =>
      dsimp only
      by_cases hfe : f = ""
      · rw [if_neg (by simp [hfe])]
        exact ih models hm
      · rw [if_pos hfe]
        by_cases hmod : jsTruthyStr o.model = true
        · simp [hmod]
        · simp only [Bool.not_eq_true] at hmod
          simp only [hmod, Bool.false_eq_true, if_false]
          cases o.taskTypeOverride with
          | none => exact hm
          | some t =>
            dsimp only
            by_cases hsel : selTruthy (lookupCell config strategy t tier) = true
            · rw [if_pos hsel]
              cases hcell : lookupCell config strategy t tier with
              | none => rw [hcell] at hsel; simp [selTruthy] at hsel
              | some sel =>
                cases sel with
                | single m2 => simp [hcell, cellModels]
                | arr ms =>
                  have hne2 : ms ≠ [] :=
                    fun hms => hwf strategy t tier (by rw [hcell, hms])
                  simp [hcell, cellModels, hne2]
            · simp only [Bool.not_eq_true] at hsel
              rw [if_neg (by simp [hsel])]
              exact hm

/-- Every model produced by the override pass comes from the incoming
selection, a matrix cell, or a hard override entry. -/
theorem applyOverrides_from (config : OrchestratorConfigV21)
    (strategy : Strategy) (tier : Complexity) (files : List String) :
    ∀ (overrides : List FilePatternOverride) (models : List String),
      (∀ o ∈ overrides, o ∈ config.filePatternOverrides.getD []) →
      (∀ m ∈ models, modelFrom config m) →
      ∀ m ∈ (applyOverrides config strategy tier files models overrides).1,
        modelFrom config m := by
  intro overrides
  induction overrides with
  | nil => intro models _ hmods m hm; exact hmods m hm
  | cons o rest ih =>
    intro models hov hmods m
    have hov' : ∀ x ∈ rest, x ∈ config.filePatternOverrides.getD [] :=
      fun x hx => hov x (List.mem_cons_of_mem o hx)
    unfold applyOverrides
    cases hf : files.find? (fun file => overrideMatches o.pattern file) with
    | none =>
      intro hm
      exact ih models hov' hmods m hm
    | some f =>
      dsimp only
      by_cases hfe : f = ""
      · rw [if_neg (by simp [hfe])]
        intro hm
        exact ih models hov' hmods m hm
      · rw [if_pos hfe]
        by_cases hmod : jsTruthyStr o.model = true
        · simp only [hmod, if_true]
          intro hm
          have hmm : m = o.model.getD "" := by simpa using hm
          right; left
          refine ⟨o, hov o (List.mem_cons_self o rest), ?_⟩
          cases homod : o.model with
          | none => rw [homod] at hmod; simp [jsTruthyStr] at hmod
          | some s =>
            simp only [homod, Option.getD_some] at hmm
            subst hmm
            rfl
        · simp only [Bool.not_eq_true] at hmod
          simp only [hmod, Bool.false_eq_true, if_false]
          cases o.taskTypeOverride with
          | none => intro hm; exact hmods m hm
          | some t =>
            dsimp only
            by_cases hsel : selTruthy (lookupCell config strategy t tier) = true
            · rw [if_pos hsel]
              cases hcell : lookupCell config strategy t tier with
              | none => rw [hcell] at hsel; simp [selTruthy] at hsel
              | some sel =>
                intro hm
                rw [cellModels_some] at hm
                left
                exact ⟨strategy, t, tier, sel, hcell, hm⟩
            · simp only [Bool.not_eq_true] at hsel
              rw [if_neg (by simp [hsel])]
              intro hm
              exact hmods m hm

/-- When every plan indicator is valid for the engine, the step count
succeeds. -/
theorem countPlanSteps_ok (R : RegexEngine) (context : String) :
    ∀ l : List String,
      (∀ ind ∈ l, (R.countMatches (escapeDots ind) context).isSome) →
      ∃ n, countPlanSteps R context l = .ok n := by
  intro l
  induction l with
  | nil => intro _; exact ⟨0, rfl⟩
  | cons a rest ih =>
    intro h
    obtain ⟨na, hna⟩ := Option.isSome_iff_exists.mp
      (h a (List.mem_cons_self a rest))
    obtain ⟨n, hn⟩ := ih (fun i hi => h i (List.mem_cons_of_mem a hi))
    exact ⟨na + n, by simp [countPlanSteps, hna, hn, Except.map]⟩

/-- Under `planSafe`, the context-adjustment pass cannot fail. -/
theorem contextAdjust_ok (R : RegexEngine) (promptText context : String)
    (contextTokens : Nat) (config : OrchestratorConfigV21)
    (base : Complexity) (hsafe : planSafe R config context) :
    ∃ x, contextAdjust R promptText context contextTokens config base =
      .ok x := by
  unfold contextAdjust
  unfold planSafe at hsafe
  cases hca : config.contextAware with
  | none => exact ⟨_, rfl⟩
  | some ca =>
    rw [hca] at hsafe
    by_cases hen : ca.enabled = true
    · simp only [hen, if_true]
      have hsafe' := hsafe hen
      cases hpa : ca.planAwareness with
      | none => exact ⟨_, rfl⟩
      | some pa =>
        rw [hpa] at hsafe'
        by_cases hpen : pa.enabled = true
        · obtain ⟨n, hn⟩ := countPlanSteps_ok R context pa.planIndicators
            (hsafe' hpen)
          simp only [hpen, if_true, detectPlan, hn, Except.map]
          exact ⟨_, rfl⟩
        · simp only [Bool.not_eq_true] at hpen
          simp only [hpen, Bool.false_eq_true, if_false]
          exact ⟨_, rfl⟩
    · simp only [Bool.not_eq_true] at hen
      simp only [hen, Bool.false_eq_true, if_false]
      exact ⟨_, rfl⟩

/-- The analysis call with a successful adjustment pass returns `ok`,
with the final model list as characterized. -/
theorem analyze_models (R : RegexEngine) (promptText sessionContext : String)
    (contextTokens : Nat) (config : OrchestratorConfigV21)
    (files : Option (List String)) (strategy : Strategy)
    (fc : Complexity) (adj rsadj : List String)
    (hadj : contextAdjust R promptText sessionContext contextTokens config
        (detectComplexity R promptText config) = .ok (fc, adj, rsadj)) :
    ∃ r, analyzePromptV21 R promptText sessionContext contextTokens config
        files strategy = .ok r ∧
      r.recommendedModels =
        (match config.filePatternOverrides, files with
         | some overrides, some fs =>
           (applyOverrides config strategy fc fs
             (selectModels config strategy
               (detectTaskType R promptText config) fc).1 overrides).1
         | _, _ =>
           (selectModels config strategy
             (detectTaskType R promptText config) fc).1) := by
  unfold analyzePromptV21
  dsimp only
  rw [hadj]
  exact ⟨_, rfl, by cases config.filePatternOverrides <;> cases files <;> rfl⟩

/-- C8 (counterexample): `cfgBadPlanWf` satisfies the §3 invariants
(all populated cells are non-empty), yet the selection call throws:
its plan indicator "[" is an invalid regex compiled without a guard,
so totality does not follow from the §3 invariants alone. -/
theorem invariants_insufficient_for_totality :
    wfConfig cfgBadPlanWf ∧
    (analyzePromptV21 litEngine "prompt" "ctx" 0 cfgBadPlanWf none
        .balanced).toOption = none := by
  refine ⟨by unfold wfConfig; decide, by decide⟩

/-- C8 (amended): for every prompt and every configuration satisfying
the §3 invariants, PROVIDED every configured plan indicator compiles
to a valid regular expression (the unguarded `new RegExp` at line 632
is the one classification-time failure), the selection call returns
`ok` with a non-empty ordered model list whose entries all come from
the strategy matrix, a hard override entry, or the configured default
model. -/
theorem selection_total (R : RegexEngine) (promptText sessionContext : String)
    (contextTokens : Nat) (config : OrchestratorConfigV21)
    (files : Option (List String)) (strategy : Strategy)
    (hwf : wfConfig config) (hsafe : planSafe R config sessionContext) :
    ∃ r, analyzePromptV21 R promptText sessionContext contextTokens config
        files strategy = .ok r ∧
      r.recommendedModels ≠ [] ∧
      ∀ m ∈ r.recommendedModels, modelFrom config m := by
  obtain ⟨⟨fc, adj, rsadj⟩, hadj⟩ := contextAdjust_ok R promptText
    sessionContext contextTokens config
    (detectComplexity R promptText config) hsafe
  obtain ⟨r, hr, hmodels⟩ := analyze_models R promptText sessionContext
    contextTokens config files strategy fc adj rsadj hadj
  refine ⟨r, hr, ?_, ?_⟩
  · rw [hmodels]
    cases hov : config.filePatternOverrides with
    | none => cases files <;> exact selectModels_ne_nil config strategy _ fc
    | some ovr =>
      cases files with
      | none => exact selectModels_ne_nil config strategy _ fc
      | some fs =>
        exact applyOverrides_ne_nil config strategy fc fs hwf ovr _
          (selectModels_ne_nil config strategy _ fc)
  · rw [hmodels]
    cases hov : config.filePatternOverrides with
    | none => cases files <;> exact selectModels_from config strategy _ fc
    | some ovr =>
      cases files with
      | none => exact selectModels_from config strategy _ fc
      | some fs =>
        refine applyOverrides_from config strategy fc fs ovr _ ?_
          (selectModels_from config strategy _ fc)
        intro o ho
        rw [hov]
        exact ho

/-- C8 (witness): the amended totality statement at `cfgOverride`. -/
theorem selection_total_witness :
    wfConfig cfgOverride ∧ planSafe litEngine cfgOverride "" ∧
    ∃ r, analyzePromptV21 litEngine "fix the bug" "" 0 cfgOverride none
        .balanced = .ok r ∧
      r.recommendedModels ≠ [] ∧
      ∀ m ∈ r.recommendedModels, modelFrom cfgOverride m := by
  have hs : planSafe litEngine cfgOverride "" := by
    simp [planSafe, cfgOverride]
  have hwf : wfConfig cfgOverride := by unfold wfConfig; decide
  exact ⟨hwf, hs,
    selection_total litEngine "fix the bug" "" 0 cfgOverride none .balanced
      hwf hs⟩

end AutoModel
